import Mathlib

/-!
Verification of the EDSR super-resolution encoder module
(`src/models/edsr.py`) against its natural-language specification.

The development has two layers:

* a value-level shallow embedding of the forward computation
  (tensors as shape-annotated index functions over `ℚ`, convolution with
  zero padding, ReLU, pixel shuffle, residual blocks, the mean-shift
  normalizer and the full EDSR forward pass), and
* a state-dict level embedding of parameter reconciliation
  (`EDSR.load_state_dict` and the checkpoint import performed by
  `EDSR.__init__`), with parameter names as strings and tensors as
  shape/value records.
-/

/-! ## Value-level tensors

A rank-4 activation tensor `(batch, channel, height, width)`.  Entries are
rationals (the embedding of the ideal real-number semantics of the float
computation); `data` is total, and indices outside `n/c/h/w` are
irrelevant junk. -/

@[ext]
structure Tensor4 where
  n : ℕ
  c : ℕ
  h : ℕ
  w : ℕ
  data : ℕ → ℕ → ℕ → ℕ → ℚ

/-- Two tensors are equal as tensors when their shapes agree and their
entries agree at every in-range index. -/
def Tensor4.Equiv (x y : Tensor4) : Prop :=
  x.n = y.n ∧ x.c = y.c ∧ x.h = y.h ∧ x.w = y.w ∧
    ∀ b c i j, b < x.n → c < x.c → i < x.h → j < x.w →
      x.data b c i j = y.data b c i j

/-- Zero-padded access into `x` at virtual coordinates shifted by `pad`
(the value used by a convolution with symmetric zero padding). -/
def padAccess (x : Tensor4) (pad b c i j : ℕ) : ℚ :=
  if pad ≤ i ∧ i - pad < x.h ∧ pad ≤ j ∧ j - pad < x.w then
    x.data b c (i - pad) (j - pad)
  else 0

/-- 2D convolution, stride 1, `co` output channels, square `k × k`
kernel, symmetric zero padding `pad`; embeds `nn.Conv2d` as produced by
`default_conv` (which sets `padding = kernel_size // 2`). -/
def conv2d (co k pad : ℕ) (weight : ℕ → ℕ → ℕ → ℕ → ℚ) (bias : ℕ → ℚ)
    (x : Tensor4) : Tensor4 where
  n := x.n
  c := co
  h := x.h + 2 * pad - (k - 1)
  w := x.w + 2 * pad - (k - 1)
  data := fun b o i j =>
    bias o + ∑ cc ∈ Finset.range x.c, ∑ di ∈ Finset.range k,
      ∑ dj ∈ Finset.range k,
        weight o cc di dj * padAccess x pad b cc (i + di) (j + dj)

/-- Elementwise `nn.ReLU`. -/
def relu4 (x : Tensor4) : Tensor4 :=
  { x with data := fun b c i j => max (x.data b c i j) 0 }

/-- `Tensor.mul` by a scalar (`res.mul(self.res_scale)`). -/
def mulScalar (s : ℚ) (x : Tensor4) : Tensor4 :=
  { x with data := fun b c i j => x.data b c i j * s }

/-- In-place tensor addition `a += b` (shapes of the two operands agree
in every use in the module; the result carries `a`'s shape). -/
def addT (a b : Tensor4) : Tensor4 :=
  { a with data := fun bb c i j => a.data bb c i j + b.data bb c i j }

/-- `nn.PixelShuffle(r)`: trades an `r*r` channel factor for an `r`-fold
spatial expansion in each dimension. -/
def pixelShuffle (r : ℕ) (x : Tensor4) : Tensor4 where
  n := x.n
  c := x.c / (r * r)
  h := x.h * r
  w := x.w * r
  data := fun b c i j =>
    x.data b (c * (r * r) + (i % r) * r + j % r) (i / r) (j / r)

/-! ## Residual block

`ResBlock` with `bn = False` and `act = nn.ReLU(True)` (the
instantiation used by `EDSR.__init__`): two convolutions at `nf`
channels with a ReLU between them, the result scaled by `res_scale` and
added to the input. -/

structure ConvParams where
  weight : ℕ → ℕ → ℕ → ℕ → ℚ
  bias : ℕ → ℚ

/-- The `self.body` of a `ResBlock`: conv → ReLU → conv. -/
def resBlockBody (nf k : ℕ) (c1 c2 : ConvParams) (x : Tensor4) : Tensor4 :=
  conv2d nf k (k / 2) c2.weight c2.bias
    (relu4 (conv2d nf k (k / 2) c1.weight c1.bias x))

/-- `ResBlock.forward`: `res = self.body(x).mul(self.res_scale); res += x`. -/
def resBlockForward (nf k : ℕ) (c1 c2 : ConvParams) (resScale : ℚ)
    (x : Tensor4) : Tensor4 :=
  addT (mulScalar resScale (resBlockBody nf k c1 c2 x)) x

/-! ## Upsampler

`Upsampler.__init__` branches on `(scale & (scale - 1)) == 0`; in the
power-of-two branch it builds `int(math.log(scale, 2))` sub-pixel
stages (`math.log(0, 2)` raises `ValueError`, any scale that is neither
a power of two nor 3 raises `NotImplementedError`). -/

inductive UpErr where
  | notImplemented
  | mathDomain
deriving DecidableEq

inductive UpPlan where
  | pow2 (stages : ℕ)
  | triple
deriving DecidableEq

/-- The construction-time stage selection of `Upsampler.__init__`. -/
def upsamplerPlan (scale : ℕ) : Except UpErr UpPlan :=
  if scale &&& (scale - 1) == 0 then
    if scale == 0 then .error .mathDomain
    else .ok (.pow2 (Nat.log2 scale))
  else if scale == 3 then .ok .triple
  else .error .notImplemented

/-- One power-of-two stage: conv to `4 * nf` channels, `PixelShuffle(2)`
(with `bn = False`, `act = False` as in `EDSR.__init__`). -/
def upStage2 (nf : ℕ) (p : ConvParams) (x : Tensor4) : Tensor4 :=
  pixelShuffle 2 (conv2d (4 * nf) 3 1 p.weight p.bias x)

/-- `m` successive power-of-two stages, stage `0` applied first. -/
def upStagesPow2 (nf : ℕ) (ps : ℕ → ConvParams) : ℕ → Tensor4 → Tensor4
  | 0, x => x
  | m + 1, x => upStage2 nf (ps m) (upStagesPow2 nf ps m x)

/-- The forward pass of a constructed `Upsampler`. -/
def upsamplerForward (nf : ℕ) (ps : ℕ → ConvParams) (plan : UpPlan)
    (x : Tensor4) : Tensor4 :=
  match plan with
  | .pow2 m => upStagesPow2 nf ps m x
  | .triple => pixelShuffle 3 (conv2d (9 * nf) 3 1 (ps 0).weight (ps 0).bias x)

/-! ## Mean-shift normalizer

`MeanShift` is an `nn.Conv2d(3, 3, kernel_size=1)` whose weight is
`eye(3) / std` (divided along the output-channel axis) and whose bias is
`sign * rgb_range * mean / std`. -/

def meanShiftWeight (std : ℕ → ℚ) : ℕ → ℕ → ℕ → ℕ → ℚ :=
  fun o cc _ _ => (if o = cc then 1 else 0) / std o

def meanShiftBias (sign rgbRange : ℚ) (mean std : ℕ → ℚ) : ℕ → ℚ :=
  fun o => sign * rgbRange * mean o / std o

/-- The forward action of a constructed `MeanShift` (a 1×1, pad-0
convolution with the analytic weight and bias above). -/
def meanShift (rgbRange : ℚ) (mean std : ℕ → ℚ) (sign : ℚ)
    (x : Tensor4) : Tensor4 :=
  conv2d 3 1 0 (meanShiftWeight std) (meanShiftBias sign rgbRange mean std) x

/-- The default `rgb_mean = (0.4488, 0.4371, 0.4040)` of `MeanShift`
(the only mean the EDSR constructor ever uses). -/
def defaultMean : ℕ → ℚ := fun o =>
  if o = 0 then 4488 / 10000
  else if o = 1 then 4371 / 10000
  else if o = 2 then 4040 / 10000
  else 0

/-- The default `rgb_std = (1.0, 1.0, 1.0)` of `MeanShift`. -/
def defaultStd : ℕ → ℚ := fun _ => 1

/-! ## EDSR configuration and parameters -/

/-- The fields of `args` that `EDSR.__init__` reads (`kernel_size` is
fixed at 3 inside the constructor, `args.scale[0]` is `scale`). -/
structure Config where
  n_resblocks : ℕ
  n_feats : ℕ
  res_scale : ℚ
  scale : ℕ
  no_upsampling : Bool
  rgb_range : ℚ
  n_colors : ℕ
deriving DecidableEq

/-- The learned tensors of a constructed `EDSR` network.  `bodyBlocks i`
holds the two convolutions of residual block `i`; `tailUpConvs s` the
sub-pixel convolution of upsampler stage `s`.  The two mean-shift
modules are constructed but (see `EDSR.forward`) never applied. -/
structure EDSRParams where
  headConv : ConvParams
  bodyBlocks : ℕ → ConvParams × ConvParams
  bodyConv : ConvParams
  tailUpConvs : ℕ → ConvParams
  tailConv : ConvParams
  subMeanW : ℕ → ℕ → ℕ → ℕ → ℚ
  subMeanB : ℕ → ℚ
  addMeanW : ℕ → ℕ → ℕ → ℕ → ℚ
  addMeanB : ℕ → ℚ

/-- The `self.head` stage: one conv from `n_colors` to `n_feats`. -/
def edsrHead (cfg : Config) (p : EDSRParams) (x : Tensor4) : Tensor4 :=
  conv2d cfg.n_feats 3 1 p.headConv.weight p.headConv.bias x

/-- The residual-block prefix of `self.body`, block `0` applied first. -/
def edsrBodyBlocks (cfg : Config) (p : EDSRParams) : ℕ → Tensor4 → Tensor4
  | 0, x => x
  | i + 1, x =>
    resBlockForward cfg.n_feats 3 (p.bodyBlocks i).1 (p.bodyBlocks i).2
      cfg.res_scale (edsrBodyBlocks cfg p i x)

/-- The `self.body` stage: `n_resblocks` residual blocks followed by one
trailing convolution. -/
def edsrBody (cfg : Config) (p : EDSRParams) (x : Tensor4) : Tensor4 :=
  conv2d cfg.n_feats 3 1 p.bodyConv.weight p.bodyConv.bias
    (edsrBodyBlocks cfg p cfg.n_resblocks x)

/-- The `self.tail` stage: `Upsampler(conv, scale, n_feats)` followed by
a conv from `n_feats` back to `n_colors`.  The error branch is
unreachable for any configuration whose construction succeeded. -/
def edsrTail (cfg : Config) (p : EDSRParams) (x : Tensor4) : Tensor4 :=
  match upsamplerPlan cfg.scale with
  | .ok plan =>
    conv2d cfg.n_colors 3 1 p.tailConv.weight p.tailConv.bias
      (upsamplerForward cfg.n_feats p.tailUpConvs plan x)
  | .error _ => x

/-- `EDSR.forward`: `x = head(x); res = body(x); res += x;` then `res`
itself under `no_upsampling`, else `tail(res)`.  Neither `sub_mean` nor
`add_mean` is applied. -/
def edsrForward (cfg : Config) (p : EDSRParams) (x : Tensor4) : Tensor4 :=
  let h := edsrHead cfg p x
  let res := edsrBody cfg p h
  let res2 := addT res h
  if cfg.no_upsampling then res2 else edsrTail cfg p res2

/-- `EDSR.out_dim` as set by `EDSR.__init__`. -/
def edsrOutDim (cfg : Config) : ℕ :=
  if cfg.no_upsampling then cfg.n_feats else cfg.n_colors

/-! ## State-dict layer

Checkpoints and the network's own `state_dict()` are mappings from
hierarchical parameter names to tensors.  At this layer a tensor is its
shape plus a flat value list; `copy_` succeeds exactly on matching
shapes. -/

structure STensor where
  shape : List ℕ
  vals : List ℚ
deriving DecidableEq

/-- Association-list lookup (`name in own_state` / `own_state[name]`). -/
def lookupP : List (String × STensor) → String → Option STensor
  | [], _ => none
  | (k, v) :: rest, name => if k = name then some v else lookupP rest name

/-- In-place overwrite of the tensor stored under `name`
(`own_state[name].copy_(param)`). -/
def updateP : List (String × STensor) → String → STensor → List (String × STensor)
  | [], _, _ => []
  | (k, v) :: rest, name, t =>
    if k = name then (k, t) :: updateP rest name t
    else (k, v) :: updateP rest name t

/-- `name.find('tail') != -1`: does the name contain the substring
`tail`? -/
def startsTailChars : List Char → Bool
  | 't' :: 'a' :: 'i' :: 'l' :: _ => true
  | _ => false

def hasTailChars : List Char → Bool
  | [] => false
  | c :: rest => startsTailChars (c :: rest) || hasTailChars rest

def containsTail (s : String) : Bool := hasTailChars s.data

/-- The two exceptions `EDSR.load_state_dict` can raise:
`RuntimeError` on a shape mismatch, `KeyError` on an unexpected key. -/
inductive LoadErr where
  | shapeMismatch (name : String)
  | unexpectedKey (name : String)
deriving DecidableEq

/-- `EDSR.load_state_dict`: walk the checkpoint entries in order; copy
into matching-shape parameters, silently tolerate mismatches and
unexpected keys whose name contains `tail`, and stop with the
corresponding error otherwise.  Returns the (partially) overwritten own
state together with the raised error, if any. -/
def loadStateDict (own : List (String × STensor)) :
    List (String × STensor) → Bool → List (String × STensor) × Option LoadErr
  | [], _ => (own, none)
  | (name, p) :: rest, strict =>
    match lookupP own name with
    | some t =>
      if t.shape = p.shape then loadStateDict (updateP own name p) rest strict
      else if containsTail name then loadStateDict own rest strict
      else (own, some (.shapeMismatch name))
    | none =>
      if strict then
        if containsTail name then loadStateDict own rest strict
        else (own, some (.unexpectedKey name))
      else loadStateDict own rest strict

/-! ### The network's own parameter mapping

Names and shapes follow PyTorch's module registration: `head.0`,
`body.{i}.body.{0,2}` for residual block `i`, `body.{n_resblocks}` for
the trailing convolution, `tail.0.{2s}` for upsampler stage `s` and
`tail.1` for the final convolution (only without `no_upsampling`), and
`sub_mean` / `add_mean`.  Freshly initialized values are supplied by
`init`; the mean-shift values are the analytic ones assigned by
`MeanShift.__init__`. -/

def convEntries (base : String) (co ci k : ℕ) (init : String → List ℚ) :
    List (String × STensor) :=
  [(base ++ ".weight", ⟨[co, ci, k, k], init (base ++ ".weight")⟩),
   (base ++ ".bias", ⟨[co], init (base ++ ".bias")⟩)]

def blockEntries (cfg : Config) (init : String → List ℚ) :
    ℕ → List (String × STensor)
  | 0 => []
  | i + 1 =>
    blockEntries cfg init i ++
      convEntries ("body." ++ Nat.repr i ++ ".body.0")
        cfg.n_feats cfg.n_feats 3 init ++
      convEntries ("body." ++ Nat.repr i ++ ".body.2")
        cfg.n_feats cfg.n_feats 3 init

def pow2StageEntries (cfg : Config) (init : String → List ℚ) :
    ℕ → List (String × STensor)
  | 0 => []
  | s + 1 =>
    pow2StageEntries cfg init s ++
      convEntries ("tail.0." ++ Nat.repr (2 * s))
        (4 * cfg.n_feats) cfg.n_feats 3 init

def tailEntries (cfg : Config) (init : String → List ℚ) :
    Option UpPlan → List (String × STensor)
  | none => []
  | some (.pow2 m) =>
    pow2StageEntries cfg init m ++
      convEntries "tail.1" cfg.n_colors cfg.n_feats 3 init
  | some .triple =>
    convEntries "tail.0.0" (9 * cfg.n_feats) cfg.n_feats 3 init ++
      convEntries "tail.1" cfg.n_colors cfg.n_feats 3 init

/-- Flattened `eye(3)` (with the default unit `std`), the analytic
mean-shift weight. -/
def eyeFlat : List ℚ := [1, 0, 0, 0, 1, 0, 0, 0, 1]

/-- The analytic mean-shift bias values `sign * rgb_range * mean / std`
for the default mean and std. -/
def meanBiasVals (sign rgbRange : ℚ) : List ℚ :=
  [meanShiftBias sign rgbRange defaultMean defaultStd 0,
   meanShiftBias sign rgbRange defaultMean defaultStd 1,
   meanShiftBias sign rgbRange defaultMean defaultStd 2]

def meanShiftEntries (base : String) (sign rgbRange : ℚ) :
    List (String × STensor) :=
  [(base ++ ".weight", ⟨[3, 3, 1, 1], eyeFlat⟩),
   (base ++ ".bias", ⟨[3], meanBiasVals sign rgbRange⟩)]

/-- `self.state_dict()` of a freshly constructed `EDSR`. -/
def ownState (cfg : Config) (plan : Option UpPlan)
    (init : String → List ℚ) : List (String × STensor) :=
  convEntries "head.0" cfg.n_feats cfg.n_colors 3 init ++
    blockEntries cfg init cfg.n_resblocks ++
    convEntries ("body." ++ Nat.repr cfg.n_resblocks)
      cfg.n_feats cfg.n_feats 3 init ++
    tailEntries cfg init plan ++
    meanShiftEntries "sub_mean" (-1) cfg.rgb_range ++
    meanShiftEntries "add_mean" 1 cfg.rgb_range

/-- Construction-time failures that propagate out of `EDSR.__init__`:
an unsupported upsampling scale, or a `KeyError` from the weight
importer (the only importer exception `__init__` does not catch). -/
inductive ConstructErr where
  | upsampler (e : UpErr)
  | keyError (name : String)
deriving DecidableEq

/-- The tail plan requested by the configuration (`none` in
feature-extractor mode). -/
def tailPlanOf (cfg : Config) : Except UpErr (Option UpPlan) :=
  if cfg.no_upsampling then .ok none else (upsamplerPlan cfg.scale).map some

/-- `EDSR.__init__` at the state-dict level: build the module hierarchy
(possibly failing on the upsampling scale), then, when a checkpoint is
present, run the importer.  A `RuntimeError` (shape mismatch) is caught
and logged, leaving the partially overwritten state; a `KeyError`
propagates and aborts construction.  A missing checkpoint file is the
`none` case (caught and logged). -/
def edsrConstruct (cfg : Config) (init : String → List ℚ)
    (checkpoint : Option (List (String × STensor))) :
    Except ConstructErr (List (String × STensor)) :=
  match tailPlanOf cfg with
  | .error e => .error (.upsampler e)
  | .ok plan =>
    match checkpoint with
    | none => .ok (ownState cfg plan init)
    | some sd =>
      match loadStateDict (ownState cfg plan init) sd true with
      | (st, none) => .ok st
      | (st, some (.shapeMismatch _)) => .ok st
      | (_, some (.unexpectedKey n)) => .error (.keyError n)

/-! ## Encoder wrapper and named builders

`Encoder.__init__(self, args)` takes exactly one positional argument
besides `self` and sets `out_dim = args.n_feats` unconditionally;
`make_encoder_baseline` calls `Encoder(args)` while `make_encoder_large`
calls `Encoder(args, n_class)`. -/

inductive PyArg where
  | config (c : Config)
  | intArg (n : ℕ)

inductive PyErr where
  | typeError
deriving DecidableEq

structure EncoderModel where
  args : Config
  out_dim : ℕ
deriving DecidableEq

/-- Calling the `Encoder` class with a list of positional arguments;
a call whose arity does not match `__init__(self, args)` raises
`TypeError`. -/
def encoderNew (posArgs : List PyArg) : Except PyErr EncoderModel :=
  match posArgs with
  | [.config a] => .ok { args := a, out_dim := a.n_feats }
  | _ => .error .typeError

/-- The `args` namespace assembled by both builders (`n_colors = 3`;
the checkpoint-table lookup does not affect the network structure). -/
def mkBuilderArgs (n_resblocks n_feats : ℕ) (res_scale : ℚ) (scale : ℕ)
    (no_upsampling : Bool) (rgb_range : ℚ) : Config :=
  { n_resblocks := n_resblocks, n_feats := n_feats, res_scale := res_scale,
    scale := scale, no_upsampling := no_upsampling, rgb_range := rgb_range,
    n_colors := 3 }

/-- `make_encoder_baseline`: `return Encoder(args)`. -/
def make_encoder_baseline (n_resblocks n_feats : ℕ) (res_scale : ℚ)
    (scale : ℕ) (no_upsampling : Bool) (rgb_range : ℚ) (n_class : ℕ) :
    Except PyErr EncoderModel :=
  encoderNew [.config (mkBuilderArgs n_resblocks n_feats res_scale scale
    no_upsampling rgb_range)]

/-- `make_encoder_large`: `return Encoder(args, n_class)`. -/
def make_encoder_large (n_resblocks n_feats : ℕ) (res_scale : ℚ)
    (scale : ℕ) (no_upsampling : Bool) (rgb_range : ℚ) (n_class : ℕ) :
    Except PyErr EncoderModel :=
  encoderNew [.config (mkBuilderArgs n_resblocks n_feats res_scale scale
    no_upsampling rgb_range), .intArg n_class]

/-- The head character of a parameter name (used to separate the
stage namespaces `head` / `body` / `tail` from `sub_mean` / `add_mean`). -/
def firstChar (s : String) : Option Char := s.data.head?

/-! ## Concrete fixtures used by counterexamples and witnesses -/

/-- A small feature-extractor configuration: no residual blocks, one
feature channel, scale 2, `no_upsampling = True`, `rgb_range = 1`. -/
def cfgA : Config :=
  { n_resblocks := 0, n_feats := 1, res_scale := 1, scale := 2,
    no_upsampling := true, rgb_range := 1, n_colors := 3 }

/-- The same configuration with upsampling enabled. -/
def cfgUp : Config :=
  { n_resblocks := 0, n_feats := 1, res_scale := 1, scale := 2,
    no_upsampling := false, rgb_range := 1, n_colors := 3 }

/-- A fresh-initialization function supplying empty value lists. -/
def initZero : String → List ℚ := fun _ => []

/-- A 1×3×1×1 all-zero input tensor. -/
def cexInput : Tensor4 := ⟨1, 3, 1, 1, fun _ _ _ _ => 0⟩

/-- A 1×1×1×1 constant input tensor. -/
def constInput : Tensor4 := ⟨1, 1, 1, 1, fun _ _ _ _ => 5⟩

/-- All-zero convolution parameters. -/
def zeroConv : ConvParams := ⟨fun _ _ _ _ => 0, fun _ => 0⟩

/-- All-zero network parameters. -/
def zeroParams : EDSRParams :=
  ⟨zeroConv, fun _ => (zeroConv, zeroConv), zeroConv, fun _ => zeroConv,
    zeroConv, fun _ _ _ _ => 0, fun _ => 0, fun _ _ _ _ => 0, fun _ => 0⟩

/-! ### Scale-factor validation facts -/

/-- `2 ^ e` clears the `scale & (scale - 1)` test. -/
lemma land_pred_pow2 (e : ℕ) : 2 ^ e &&& (2 ^ e - 1) = 0 := by
  apply Nat.eq_of_testBit_eq
  intro i
  rw [Nat.testBit_and, Nat.zero_testBit, Nat.testBit_two_pow_sub_one]
  rcases eq_or_ne e i with h | h
  · subst h
    simp
  · rw [Nat.testBit_two_pow_of_ne h]
    simp

/-- Conversely, a nonzero value clearing the test is a power of two. -/
lemma pow2_of_land_pred : ∀ n : ℕ, n &&& (n - 1) = 0 → n = 0 ∨ ∃ k, n = 2 ^ k := by
  intro n
  induction n using Nat.strong_induction_on with
  | _ n ih =>
    intro h
    rcases Nat.eq_zero_or_pos n with h0 | hpos
    · exact Or.inl h0
    right
    rcases Nat.even_or_odd n with he | ho
    · obtain ⟨m, hm⟩ := he
      have hm1 : 1 ≤ m := by omega
      have hstep : m &&& (m - 1) = 0 := by
        apply Nat.eq_of_testBit_eq
        intro i
        have hbit : Nat.testBit (n &&& (n - 1)) (i + 1) = Nat.testBit 0 (i + 1) := by
          rw [h]
        rw [Nat.testBit_and, Nat.zero_testBit, Nat.testBit_succ, Nat.testBit_succ] at hbit
        have e1 : n / 2 = m := by omega
        have e2 : (n - 1) / 2 = m - 1 := by omega
        rw [e1, e2] at hbit
        rw [Nat.testBit_and, Nat.zero_testBit]
        exact hbit
      rcases ih m (by omega) hstep with h0 | ⟨k, hk⟩
      · omega
      · exact ⟨k + 1, by rw [pow_succ]; omega⟩
    · obtain ⟨m, hm⟩ := ho
      rcases Nat.eq_zero_or_pos m with hm0 | hmpos
      · exact ⟨0, by omega⟩
      · exfalso
        have hmz : m = 0 := by
          apply Nat.eq_of_testBit_eq
          intro i
          have hbit : Nat.testBit (n &&& (n - 1)) (i + 1) = Nat.testBit 0 (i + 1) := by
            rw [h]
          rw [Nat.testBit_and, Nat.zero_testBit, Nat.testBit_succ, Nat.testBit_succ] at hbit
          have e1 : n / 2 = m := by omega
          have e2 : (n - 1) / 2 = m := by omega
          rw [e1, e2] at hbit
          rw [Nat.zero_testBit]
          simpa using hbit
        omega

/-- On an exact power of two the Upsampler constructs `e` doubling
stages. -/
lemma upsamplerPlan_pow2 (e : ℕ) : upsamplerPlan (2 ^ e) = .ok (.pow2 e) := by
  have h1 : 2 ^ e &&& (2 ^ e - 1) = 0 := land_pred_pow2 e
  have h2 : (2 : ℕ) ^ e ≠ 0 := pow_ne_zero e (by norm_num)
  unfold upsamplerPlan
  rw [h1]
  simp only [beq_self_eq_true, if_true]
  rw [if_neg (by simp [h2])]
  rw [Nat.log2_eq_log_two, Nat.log_pow (by norm_num)]

lemma upsamplerPlan_two : upsamplerPlan 2 = .ok (.pow2 1) := by
  have := upsamplerPlan_pow2 1
  norm_num at this
  exact this

lemma upsamplerPlan_four : upsamplerPlan 4 = .ok (.pow2 2) := by
  have := upsamplerPlan_pow2 2
  norm_num at this
  exact this

lemma upsamplerPlan_eight : upsamplerPlan 8 = .ok (.pow2 3) := by
  have := upsamplerPlan_pow2 3
  norm_num at this
  exact this

lemma upsamplerPlan_three : upsamplerPlan 3 = .ok .triple := rfl

lemma upsamplerPlan_one : upsamplerPlan 1 = .ok (.pow2 0) := by
  have := upsamplerPlan_pow2 0
  norm_num at this
  exact this

/-! ### Spatial-shape lemmas -/

lemma conv2d_k3_h (co : ℕ) (wt : ℕ → ℕ → ℕ → ℕ → ℚ) (bi : ℕ → ℚ)
    (x : Tensor4) : (conv2d co 3 1 wt bi x).h = x.h := by
  show x.h + 2 * 1 - (3 - 1) = x.h
  omega

lemma conv2d_k3_w (co : ℕ) (wt : ℕ → ℕ → ℕ → ℕ → ℚ) (bi : ℕ → ℚ)
    (x : Tensor4) : (conv2d co 3 1 wt bi x).w = x.w := by
  show x.w + 2 * 1 - (3 - 1) = x.w
  omega

lemma resBlockForward_k3_h (nf : ℕ) (c1 c2 : ConvParams) (s : ℚ)
    (x : Tensor4) : (resBlockForward nf 3 c1 c2 s x).h = x.h := by
  show (conv2d nf 3 1 c2.weight c2.bias
      (relu4 (conv2d nf 3 1 c1.weight c1.bias x))).h = x.h
  rw [conv2d_k3_h]
  show (conv2d nf 3 1 c1.weight c1.bias x).h = x.h
  rw [conv2d_k3_h]

lemma resBlockForward_k3_w (nf : ℕ) (c1 c2 : ConvParams) (s : ℚ)
    (x : Tensor4) : (resBlockForward nf 3 c1 c2 s x).w = x.w := by
  show (conv2d nf 3 1 c2.weight c2.bias
      (relu4 (conv2d nf 3 1 c1.weight c1.bias x))).w = x.w
  rw [conv2d_k3_w]
  show (conv2d nf 3 1 c1.weight c1.bias x).w = x.w
  rw [conv2d_k3_w]

lemma edsrBodyBlocks_h (cfg : Config) (p : EDSRParams) :
    ∀ (k : ℕ) (x : Tensor4), (edsrBodyBlocks cfg p k x).h = x.h := by
  intro k
  induction k with
  | zero => intro x; rfl
  | succ i ih =>
    intro x
    show (resBlockForward cfg.n_feats 3 (p.bodyBlocks i).1 (p.bodyBlocks i).2
        cfg.res_scale (edsrBodyBlocks cfg p i x)).h = x.h
    rw [resBlockForward_k3_h, ih]

lemma edsrBodyBlocks_w (cfg : Config) (p : EDSRParams) :
    ∀ (k : ℕ) (x : Tensor4), (edsrBodyBlocks cfg p k x).w = x.w := by
  intro k
  induction k with
  | zero => intro x; rfl
  | succ i ih =>
    intro x
    show (resBlockForward cfg.n_feats 3 (p.bodyBlocks i).1 (p.bodyBlocks i).2
        cfg.res_scale (edsrBodyBlocks cfg p i x)).w = x.w
    rw [resBlockForward_k3_w, ih]

/-- Spatial height of the feature map entering the mode branch of
`EDSR.forward` (head, body, long skip all preserve it). -/
lemma edsrTrunk_h (cfg : Config) (p : EDSRParams) (x : Tensor4) :
    (addT (edsrBody cfg p (edsrHead cfg p x)) (edsrHead cfg p x)).h = x.h := by
  show (edsrBody cfg p (edsrHead cfg p x)).h = x.h
  unfold edsrBody edsrHead
  rw [conv2d_k3_h, edsrBodyBlocks_h, conv2d_k3_h]

lemma edsrTrunk_w (cfg : Config) (p : EDSRParams) (x : Tensor4) :
    (addT (edsrBody cfg p (edsrHead cfg p x)) (edsrHead cfg p x)).w = x.w := by
  show (edsrBody cfg p (edsrHead cfg p x)).w = x.w
  unfold edsrBody edsrHead
  rw [conv2d_k3_w, edsrBodyBlocks_w, conv2d_k3_w]

lemma upStagesPow2_h (nf : ℕ) (ps : ℕ → ConvParams) :
    ∀ (m : ℕ) (x : Tensor4), (upStagesPow2 nf ps m x).h = x.h * 2 ^ m := by
  intro m
  induction m with
  | zero => intro x; show x.h = x.h * 1; omega
  | succ m ih =>
    intro x
    show (pixelShuffle 2 (conv2d (4 * nf) 3 1 (ps m).weight (ps m).bias
        (upStagesPow2 nf ps m x))).h = x.h * 2 ^ (m + 1)
    show (conv2d (4 * nf) 3 1 (ps m).weight (ps m).bias
        (upStagesPow2 nf ps m x)).h * 2 = x.h * 2 ^ (m + 1)
    rw [conv2d_k3_h, ih, pow_succ]
    ring

lemma upStagesPow2_w (nf : ℕ) (ps : ℕ → ConvParams) :
    ∀ (m : ℕ) (x : Tensor4), (upStagesPow2 nf ps m x).w = x.w * 2 ^ m := by
  intro m
  induction m with
  | zero => intro x; show x.w = x.w * 1; omega
  | succ m ih =>
    intro x
    show (pixelShuffle 2 (conv2d (4 * nf) 3 1 (ps m).weight (ps m).bias
        (upStagesPow2 nf ps m x))).w = x.w * 2 ^ (m + 1)
    show (conv2d (4 * nf) 3 1 (ps m).weight (ps m).bias
        (upStagesPow2 nf ps m x)).w * 2 = x.w * 2 ^ (m + 1)
    rw [conv2d_k3_w, ih, pow_succ]
    ring

lemma edsrTail_h_pow2 (cfg : Config) (p : EDSRParams) (x : Tensor4)
    (e : ℕ) (hs : cfg.scale = 2 ^ e) :
    (edsrTail cfg p x).h = x.h * cfg.scale := by
  unfold edsrTail
  rw [hs, upsamplerPlan_pow2]
  show (conv2d cfg.n_colors 3 1 p.tailConv.weight p.tailConv.bias
      (upStagesPow2 cfg.n_feats p.tailUpConvs e x)).h = x.h * 2 ^ e
  rw [conv2d_k3_h, upStagesPow2_h]

lemma edsrTail_w_pow2 (cfg : Config) (p : EDSRParams) (x : Tensor4)
    (e : ℕ) (hs : cfg.scale = 2 ^ e) :
    (edsrTail cfg p x).w = x.w * cfg.scale := by
  unfold edsrTail
  rw [hs, upsamplerPlan_pow2]
  show (conv2d cfg.n_colors 3 1 p.tailConv.weight p.tailConv.bias
      (upStagesPow2 cfg.n_feats p.tailUpConvs e x)).w = x.w * 2 ^ e
  rw [conv2d_k3_w, upStagesPow2_w]

lemma edsrTail_h_three (cfg : Config) (p : EDSRParams) (x : Tensor4)
    (hs : cfg.scale = 3) :
    (edsrTail cfg p x).h = x.h * cfg.scale := by
  unfold edsrTail
  rw [hs, upsamplerPlan_three]
  show (conv2d cfg.n_colors 3 1 p.tailConv.weight p.tailConv.bias
      (pixelShuffle 3 (conv2d (9 * cfg.n_feats) 3 1 (p.tailUpConvs 0).weight
        (p.tailUpConvs 0).bias x))).h = x.h * 3
  rw [conv2d_k3_h]
  show (conv2d (9 * cfg.n_feats) 3 1 (p.tailUpConvs 0).weight
      (p.tailUpConvs 0).bias x).h * 3 = x.h * 3
  rw [conv2d_k3_h]

lemma edsrTail_w_three (cfg : Config) (p : EDSRParams) (x : Tensor4)
    (hs : cfg.scale = 3) :
    (edsrTail cfg p x).w = x.w * cfg.scale := by
  unfold edsrTail
  rw [hs, upsamplerPlan_three]
  show (conv2d cfg.n_colors 3 1 p.tailConv.weight p.tailConv.bias
      (pixelShuffle 3 (conv2d (9 * cfg.n_feats) 3 1 (p.tailUpConvs 0).weight
        (p.tailUpConvs 0).bias x))).w = x.w * 3
  rw [conv2d_k3_w]
  show (conv2d (9 * cfg.n_feats) 3 1 (p.tailUpConvs 0).weight
      (p.tailUpConvs 0).bias x).w * 3 = x.w * 3
  rw [conv2d_k3_w]

/-! ### Importer lemmas -/

lemma lookupP_append (a b : List (String × STensor)) (m : String) :
    lookupP (a ++ b) m =
      match lookupP a m with
      | some v => some v
      | none => lookupP b m := by
  induction a with
  | nil => rfl
  | cons kv rest ih =>
    show lookupP ((kv.1, kv.2) :: (rest ++ b)) m = _
    by_cases hk : kv.1 = m
    · simp [lookupP, hk]
    · simp only [lookupP, if_neg hk, ih]

lemma lookupP_updateP_ne (own : List (String × STensor)) (nm : String)
    (t : STensor) (m : String) (h : nm ≠ m) :
    lookupP (updateP own nm t) m = lookupP own m := by
  induction own with
  | nil => rfl
  | cons kv rest ih =>
    show lookupP (if kv.1 = nm then (kv.1, t) :: updateP rest nm t
      else (kv.1, kv.2) :: updateP rest nm t) m = _
    by_cases hk : kv.1 = nm
    · rw [if_pos hk]
      have hkm : kv.1 ≠ m := fun hh => h (hk ▸ hh)
      show lookupP ((kv.1, t) :: updateP rest nm t) m = _
      simp only [lookupP, if_neg hkm, ih]
    · rw [if_neg hk]
      show lookupP ((kv.1, kv.2) :: updateP rest nm t) m = _
      by_cases hkm : kv.1 = m
      · simp [lookupP, hkm]
      · simp only [lookupP, if_neg hkm, ih]

lemma lookupP_updateP_none_iff (own : List (String × STensor)) (nm : String)
    (t : STensor) (m : String) :
    lookupP (updateP own nm t) m = none ↔ lookupP own m = none := by
  induction own with
  | nil => exact Iff.rfl
  | cons kv rest ih =>
    show lookupP (if kv.1 = nm then (kv.1, t) :: updateP rest nm t
      else (kv.1, kv.2) :: updateP rest nm t) m = none ↔ _
    by_cases hk : kv.1 = nm
    · rw [if_pos hk]
      show lookupP ((kv.1, t) :: updateP rest nm t) m = none ↔ _
      by_cases hkm : kv.1 = m
      · simp [lookupP, hkm]
      · simp only [lookupP, if_neg hkm, ih]
    · rw [if_neg hk]
      show lookupP ((kv.1, kv.2) :: updateP rest nm t) m = none ↔ _
      by_cases hkm : kv.1 = m
      · simp [lookupP, hkm]
      · simp only [lookupP, if_neg hkm, ih]

/-- The importer only ever stops with a `KeyError` on a checkpoint name
that is missing from the network and does not contain `tail`. -/
lemma loadStateDict_no_keyError :
    ∀ (sd own : List (String × STensor))
      (_ : ∀ pr ∈ sd, lookupP own pr.1 ≠ none ∨ containsTail pr.1 = true)
      (n : String),
      (loadStateDict own sd true).2 ≠ some (.unexpectedKey n) := by
  intro sd
  induction sd with
  | nil =>
    intro own h n
    simp [loadStateDict]
  | cons pr rest ih =>
    intro own h n
    obtain ⟨name, p⟩ := pr
    simp only [loadStateDict]
    split
    next t hlk =>
      by_cases hsh : t.shape = p.shape
      · rw [if_pos hsh]
        apply ih
        intro q hq
        rcases h q (List.mem_cons_of_mem _ hq) with hq1 | hq2
        · left
          intro hc
          exact hq1 ((lookupP_updateP_none_iff own name p q.1).mp hc)
        · right; exact hq2
      · rw [if_neg hsh]
        by_cases hct : containsTail name
        · rw [if_pos hct]
          apply ih
          intro q hq
          exact h q (List.mem_cons_of_mem _ hq)
        · rw [if_neg hct]
          simp
    next hlk =>
      rcases h (name, p) (List.mem_cons_self _ _) with h1 | h2
      · exact absurd hlk h1
      · have h2' : containsTail name = true := h2
        rw [if_pos trivial, if_pos h2']
        apply ih
        intro q hq
        exact h q (List.mem_cons_of_mem _ hq)

/-- Frame property: names absent from the checkpoint keep their value
through an import (whatever error it may stop with). -/
lemma loadStateDict_frame :
    ∀ (sd own : List (String × STensor)) (strict : Bool) (m : String)
      (_ : ∀ pr ∈ sd, pr.1 ≠ m),
      lookupP (loadStateDict own sd strict).1 m = lookupP own m := by
  intro sd
  induction sd with
  | nil => intro own strict m h; rfl
  | cons pr rest ih =>
    intro own strict m h
    obtain ⟨name, p⟩ := pr
    have hname : name ≠ m := h (name, p) (List.mem_cons_self _ _)
    have hrest : ∀ pr ∈ rest, pr.1 ≠ m :=
      fun q hq => h q (List.mem_cons_of_mem _ hq)
    simp only [loadStateDict]
    split
    next t hlk =>
      by_cases hsh : t.shape = p.shape
      · rw [if_pos hsh, ih _ _ _ hrest, lookupP_updateP_ne _ _ _ _ hname]
      · rw [if_neg hsh]
        by_cases hct : containsTail name
        · rw [if_pos hct, ih _ _ _ hrest]
        · rw [if_neg hct]
    next hlk =>
      cases strict with
      | true =>
        rw [if_pos rfl]
        by_cases hct : containsTail name
        · rw [if_pos hct]
          exact ih _ _ _ hrest
        · rw [if_neg hct]
      | false =>
        rw [if_neg (by simp)]
        exact ih _ _ _ hrest

/-! ### Locating the mean-shift entries in the own state

All head/body/tail parameter names start with `h`, `b` or `t`, so they
are distinct from `sub_mean.*` and `add_mean.*`. -/


lemma firstChar_append (a b : String) (c : Char)
    (h : firstChar a = some c) : firstChar (a ++ b) = some c := by
  unfold firstChar at h ⊢
  rw [String.data_append]
  cases hd : a.data with
  | nil => rw [hd] at h; simp at h
  | cons y ys =>
    rw [hd] at h
    simp only [List.head?] at h
    simp [h]

lemma ne_of_firstChar (a b : String) (hab : firstChar a ≠ firstChar b) :
    a ≠ b := fun h => hab (by rw [h])

lemma convEntries_lookup_none (base name : String) (co ci k : ℕ)
    (init : String → List ℚ) (c : Char) (hbase : firstChar base = some c)
    (hname : firstChar name ≠ some c) :
    lookupP (convEntries base co ci k init) name = none := by
  have h1 : base ++ ".weight" ≠ name :=
    ne_of_firstChar _ _ (by rw [firstChar_append _ _ _ hbase]; exact fun hh => hname hh.symm)
  have h2 : base ++ ".bias" ≠ name :=
    ne_of_firstChar _ _ (by rw [firstChar_append _ _ _ hbase]; exact fun hh => hname hh.symm)
  simp [convEntries, lookupP, h1, h2]

lemma blockEntries_lookup_none (cfg : Config) (init : String → List ℚ)
    (name : String) (hname : firstChar name ≠ some 'b') :
    ∀ k, lookupP (blockEntries cfg init k) name = none := by
  intro k
  induction k with
  | zero => rfl
  | succ i ih =>
    have hb : firstChar ("body." ++ Nat.repr i) = some 'b' :=
      firstChar_append _ _ _ rfl
    simp only [blockEntries, lookupP_append, ih,
      convEntries_lookup_none _ _ _ _ _ _ 'b' (firstChar_append _ _ _ hb) hname]

lemma pow2StageEntries_lookup_none (cfg : Config) (init : String → List ℚ)
    (name : String) (hname : firstChar name ≠ some 't') :
    ∀ m, lookupP (pow2StageEntries cfg init m) name = none := by
  intro m
  induction m with
  | zero => rfl
  | succ s ih =>
    have hb : firstChar ("tail.0." ++ Nat.repr (2 * s)) = some 't' :=
      firstChar_append _ _ _ rfl
    simp only [pow2StageEntries, lookupP_append, ih,
      convEntries_lookup_none _ _ _ _ _ _ 't' hb hname]

lemma tailEntries_lookup_none (cfg : Config) (init : String → List ℚ)
    (name : String) (hname : firstChar name ≠ some 't') :
    ∀ plan, lookupP (tailEntries cfg init plan) name = none := by
  intro plan
  have h2 : lookupP (convEntries "tail.1" cfg.n_colors cfg.n_feats 3 init) name = none :=
    convEntries_lookup_none "tail.1" name _ _ _ init 't' rfl hname
  cases plan with
  | none => rfl
  | some pl =>
    cases pl with
    | pow2 m =>
      simp only [tailEntries, lookupP_append,
        pow2StageEntries_lookup_none cfg init name hname m, h2]
    | triple =>
      have h1 : lookupP (convEntries "tail.0.0" (9 * cfg.n_feats) cfg.n_feats 3 init)
          name = none :=
        convEntries_lookup_none "tail.0.0" name _ _ _ init 't' rfl hname
      simp only [tailEntries, lookupP_append, h1, h2]

/-- Looking up a name that starts with neither `h`, `b` nor `t` skips
straight to the mean-shift entries. -/
lemma ownState_lookup_skip (cfg : Config) (plan : Option UpPlan)
    (init : String → List ℚ) (name : String)
    (hh : firstChar name ≠ some 'h') (hb : firstChar name ≠ some 'b')
    (ht : firstChar name ≠ some 't') :
    lookupP (ownState cfg plan init) name =
      lookupP (meanShiftEntries "sub_mean" (-1) cfg.rgb_range ++
        meanShiftEntries "add_mean" 1 cfg.rgb_range) name := by
  have hbody : firstChar ("body." ++ Nat.repr cfg.n_resblocks) = some 'b' :=
    firstChar_append _ _ _ rfl
  have h1 : lookupP (convEntries "head.0" cfg.n_feats cfg.n_colors 3 init) name = none :=
    convEntries_lookup_none "head.0" name _ _ _ init 'h' rfl hh
  have h2 : lookupP (blockEntries cfg init cfg.n_resblocks) name = none :=
    blockEntries_lookup_none cfg init name hb _
  have h3 : lookupP (convEntries ("body." ++ Nat.repr cfg.n_resblocks)
      cfg.n_feats cfg.n_feats 3 init) name = none :=
    convEntries_lookup_none _ name _ _ _ init 'b' hbody hb
  have h4 : lookupP (tailEntries cfg init plan) name = none :=
    tailEntries_lookup_none cfg init name ht plan
  simp only [ownState, lookupP_append, h1, h2, h3, h4]

lemma ownState_lookup_sub_weight (cfg : Config) (plan : Option UpPlan)
    (init : String → List ℚ) :
    lookupP (ownState cfg plan init) "sub_mean.weight"
      = some ⟨[3, 3, 1, 1], eyeFlat⟩ := by
  rw [ownState_lookup_skip cfg plan init _ (by decide) (by decide) (by decide)]
  rfl

lemma ownState_lookup_sub_bias (cfg : Config) (plan : Option UpPlan)
    (init : String → List ℚ) :
    lookupP (ownState cfg plan init) "sub_mean.bias"
      = some ⟨[3], meanBiasVals (-1) cfg.rgb_range⟩ := by
  rw [ownState_lookup_skip cfg plan init _ (by decide) (by decide) (by decide)]
  rfl

lemma ownState_lookup_add_weight (cfg : Config) (plan : Option UpPlan)
    (init : String → List ℚ) :
    lookupP (ownState cfg plan init) "add_mean.weight"
      = some ⟨[3, 3, 1, 1], eyeFlat⟩ := by
  rw [ownState_lookup_skip cfg plan init _ (by decide) (by decide) (by decide)]
  rfl

lemma ownState_lookup_add_bias (cfg : Config) (plan : Option UpPlan)
    (init : String → List ℚ) :
    lookupP (ownState cfg plan init) "add_mean.bias"
      = some ⟨[3], meanBiasVals 1 cfg.rgb_range⟩ := by
  rw [ownState_lookup_skip cfg plan init _ (by decide) (by decide) (by decide)]
  rfl

/-! ## Claims -/

/-- C1 (counterexample): a checkpoint holding `head.0.weight` with shape
`[2,3,3,3]` against a network whose `head.0.weight` has shape
`[1,3,3,3]` — a shape mismatch at a name not containing `tail` — does
NOT abort construction: `edsrConstruct` completes and returns the
untouched state, because `EDSR.__init__` catches the importer's
`RuntimeError` and merely logs it. -/
theorem c1_counterexample :
    lookupP (ownState cfgA none initZero) "head.0.weight"
      = some ⟨[1, 3, 3, 3], []⟩
  ∧ containsTail "head.0.weight" = false
  ∧ edsrConstruct cfgA initZero
      (some [("head.0.weight", ⟨[2, 3, 3, 3], []⟩)])
      = .ok (ownState cfgA none initZero) :=
  ⟨rfl, rfl, rfl⟩

/-- C1 (amended): a non-tail shape mismatch is raised as a
`RuntimeError` inside `load_state_dict`, but `EDSR.__init__` catches
`RuntimeError` and logs it, so construction always completes (with the
partially overwritten state) for any checkpoint whose every name is
either present in the network or contains `tail`; only an unexpected
non-tail key (`KeyError`) propagates out of construction. -/
theorem c1_mismatch_logged_construction_completes
    (cfg : Config) (init : String → List ℚ) (plan : Option UpPlan)
    (sd : List (String × STensor))
    (hplan : tailPlanOf cfg = .ok plan)
    (hnames : ∀ pr ∈ sd,
      lookupP (ownState cfg plan init) pr.1 ≠ none ∨ containsTail pr.1 = true) :
    edsrConstruct cfg init (some sd)
      = .ok (loadStateDict (ownState cfg plan init) sd true).1 := by
  unfold edsrConstruct
  rw [hplan]
  cases hld : loadStateDict (ownState cfg plan init) sd true with
  | mk st err =>
    cases err with
    | none => simp [hld]
    | some e =>
      cases e with
      | shapeMismatch nm => simp [hld]
      | unexpectedKey nm =>
        exact absurd (congrArg Prod.snd hld)
          (loadStateDict_no_keyError sd (ownState cfg plan init) hnames nm)

/-- C1 (witness): the amended theorem applied to the counterexample
checkpoint. -/
theorem c1_mismatch_logged_construction_completes_witness :
    edsrConstruct cfgA initZero
      (some [("head.0.weight", ⟨[2, 3, 3, 3], []⟩)])
      = .ok (loadStateDict (ownState cfgA none initZero)
          [("head.0.weight", ⟨[2, 3, 3, 3], []⟩)] true).1 :=
  c1_mismatch_logged_construction_completes cfgA initZero none _ rfl
    (by decide)

/-- C9 (counterexample): checkpoint import does NOT always preserve the
mean-shift parameters: importing a checkpoint that contains a
`sub_mean.bias` entry of matching shape `[3]` but zero values overwrites
the analytically-derived construction-time bias (which is
`-rgb_range * (0.4488, 0.4371, 0.4040)`, nonzero for `rgb_range = 1`). -/
theorem c9_counterexample :
    lookupP (loadStateDict (ownState cfgA none initZero)
        [("sub_mean.bias", ⟨[3], [0, 0, 0]⟩)] true).1 "sub_mean.bias"
      = some ⟨[3], [0, 0, 0]⟩
  ∧ (⟨[3], [0, 0, 0]⟩ : STensor) ≠ ⟨[3], meanBiasVals (-1) cfgA.rgb_range⟩
  ∧ edsrConstruct cfgA initZero (some [("sub_mean.bias", ⟨[3], [0, 0, 0]⟩)])
      = .ok (updateP (ownState cfgA none initZero) "sub_mean.bias"
          ⟨[3], [0, 0, 0]⟩) :=
  ⟨rfl,
   by norm_num [meanBiasVals, meanShiftBias, defaultMean, defaultStd, cfgA,
     STensor.mk.injEq],
   rfl⟩

/-- C9 (amended): the mean-shift parameters are fixed analytically at
construction and are preserved by checkpoint import PROVIDED the
checkpoint contains no `sub_mean`/`add_mean` entry: after importing any
such checkpoint, the four mean-shift tensors still hold their
construction-time values `eye(3)` and `sign * rgb_range * mean`. -/
theorem c9_mean_shift_frame (cfg : Config) (plan : Option UpPlan)
    (init : String → List ℚ) (sd : List (String × STensor))
    (h : ∀ pr ∈ sd, pr.1 ≠ "sub_mean.weight" ∧ pr.1 ≠ "sub_mean.bias" ∧
      pr.1 ≠ "add_mean.weight" ∧ pr.1 ≠ "add_mean.bias") :
    lookupP (loadStateDict (ownState cfg plan init) sd true).1 "sub_mean.weight"
      = some ⟨[3, 3, 1, 1], eyeFlat⟩
  ∧ lookupP (loadStateDict (ownState cfg plan init) sd true).1 "sub_mean.bias"
      = some ⟨[3], meanBiasVals (-1) cfg.rgb_range⟩
  ∧ lookupP (loadStateDict (ownState cfg plan init) sd true).1 "add_mean.weight"
      = some ⟨[3, 3, 1, 1], eyeFlat⟩
  ∧ lookupP (loadStateDict (ownState cfg plan init) sd true).1 "add_mean.bias"
      = some ⟨[3], meanBiasVals 1 cfg.rgb_range⟩ := by
  refine ⟨?_, ?_, ?_, ?_⟩
  · rw [loadStateDict_frame sd _ true _ (fun pr hpr => (h pr hpr).1)]
    exact ownState_lookup_sub_weight cfg plan init
  · rw [loadStateDict_frame sd _ true _ (fun pr hpr => (h pr hpr).2.1)]
    exact ownState_lookup_sub_bias cfg plan init
  · rw [loadStateDict_frame sd _ true _ (fun pr hpr => (h pr hpr).2.2.1)]
    exact ownState_lookup_add_weight cfg plan init
  · rw [loadStateDict_frame sd _ true _ (fun pr hpr => (h pr hpr).2.2.2)]
    exact ownState_lookup_add_bias cfg plan init

/-- C9 (witness): the amended theorem applied to a mean-free
checkpoint. -/
theorem c9_mean_shift_frame_witness :
    lookupP (loadStateDict (ownState cfgA none initZero)
        [("head.0.weight", ⟨[2, 3, 3, 3], []⟩)] true).1 "sub_mean.weight"
      = some ⟨[3, 3, 1, 1], eyeFlat⟩
  ∧ lookupP (loadStateDict (ownState cfgA none initZero)
        [("head.0.weight", ⟨[2, 3, 3, 3], []⟩)] true).1 "sub_mean.bias"
      = some ⟨[3], meanBiasVals (-1) cfgA.rgb_range⟩
  ∧ lookupP (loadStateDict (ownState cfgA none initZero)
        [("head.0.weight", ⟨[2, 3, 3, 3], []⟩)] true).1 "add_mean.weight"
      = some ⟨[3, 3, 1, 1], eyeFlat⟩
  ∧ lookupP (loadStateDict (ownState cfgA none initZero)
        [("head.0.weight", ⟨[2, 3, 3, 3], []⟩)] true).1 "add_mean.bias"
      = some ⟨[3], meanBiasVals 1 cfgA.rgb_range⟩ :=
  c9_mean_shift_frame cfgA none initZero _ (by decide)

/-- C2 (counterexample): the network object returned by the builder is
the `Encoder` wrapper, and with the feature-extractor flag cleared its
`out_dim` is still the feature-channel count (64), not the
color-channel count (3) the claim requires. -/
theorem c2_counterexample :
    ∃ enc, make_encoder_baseline 16 64 1 2 false 1 100 = .ok enc ∧
      enc.out_dim ≠ (if (mkBuilderArgs 16 64 1 2 false 1).no_upsampling then
        (mkBuilderArgs 16 64 1 2 false 1).n_feats
      else (mkBuilderArgs 16 64 1 2 false 1).n_colors) :=
  ⟨_, rfl, by decide⟩

/-- C2 (amended): the inner `EDSR` network exposes `out_dim` exactly as
claimed (feature-channel count in feature-extractor mode, color-channel
count otherwise), but the `Encoder` object the builders return exposes
`out_dim = n_feats` unconditionally, so the claim as stated holds only
when the feature-extractor flag is set. -/
theorem c2_out_dim_exposed :
    (∀ cfg : Config,
      edsrOutDim cfg = if cfg.no_upsampling then cfg.n_feats else cfg.n_colors)
  ∧ ∀ (nr nf : ℕ) (rs : ℚ) (sc : ℕ) (nu : Bool) (rr : ℚ) (ncl : ℕ)
      (enc : EncoderModel),
      make_encoder_baseline nr nf rs sc nu rr ncl = .ok enc →
        enc.out_dim = nf := by
  refine ⟨fun cfg => rfl, ?_⟩
  intro nr nf rs sc nu rr ncl enc h
  have h' : Except.ok (ε := PyErr)
      { args := mkBuilderArgs nr nf rs sc nu rr, out_dim := nf } = .ok enc := h
  cases h'
  rfl

/-- C2 (witness): the amended theorem applied to the baseline builder
in feature-extractor mode. -/
theorem c2_out_dim_exposed_witness :
    ({ args := mkBuilderArgs 16 64 1 2 true 1, out_dim := 64 } :
      EncoderModel).out_dim = 64 :=
  c2_out_dim_exposed.2 16 64 1 2 true 1 100 _ rfl

/-- C4: `make_encoder_large` can never return a network: it calls
`Encoder(args, n_class)` while `Encoder.__init__` accepts only `args`,
so every invocation raises `TypeError`; `make_encoder_baseline`
constructs fine (and ignores `n_class`).  This contradicts the claim
(and the spec), which expects both builders to succeed — the extra
`n_class` argument in the large builder is a slip in the code. -/
theorem c4_large_builder_raises_type_error :
    (∀ (nr nf : ℕ) (rs : ℚ) (sc : ℕ) (nu : Bool) (rr : ℚ) (ncl : ℕ),
      make_encoder_large nr nf rs sc nu rr ncl = .error .typeError)
  ∧ make_encoder_large 32 256 (1 / 10) 2 true 1 100 = .error .typeError
  ∧ make_encoder_baseline 16 64 1 2 true 1 100
      = .ok { args := mkBuilderArgs 16 64 1 2 true 1, out_dim := 64 }
  ∧ ∀ (nr nf : ℕ) (rs : ℚ) (sc : ℕ) (nu : Bool) (rr : ℚ) (ncl ncl' : ℕ),
      make_encoder_baseline nr nf rs sc nu rr ncl
        = make_encoder_baseline nr nf rs sc nu rr ncl' :=
  ⟨fun _ _ _ _ _ _ _ => rfl, rfl, rfl, fun _ _ _ _ _ _ _ _ => rfl⟩

/-- C7: Upsampler construction fails for every scale factor that is
neither a power of two nor exactly 3 (in particular 5), and succeeds
for 2, 3, 4 and 8 (with 1, 2 and 3 doubling stages in the
power-of-two cases). -/
theorem c7_upsampler_scale_validation :
    (∀ scale : ℕ, (¬ ∃ k, scale = 2 ^ k) → scale ≠ 3 →
      ∃ e, upsamplerPlan scale = .error e)
  ∧ upsamplerPlan 2 = .ok (.pow2 1) ∧ upsamplerPlan 3 = .ok .triple
  ∧ upsamplerPlan 4 = .ok (.pow2 2) ∧ upsamplerPlan 8 = .ok (.pow2 3) := by
  refine ⟨?_, upsamplerPlan_two, upsamplerPlan_three, upsamplerPlan_four,
    upsamplerPlan_eight⟩
  intro scale hp h3
  by_cases hb : (scale &&& (scale - 1) == 0) = true
  · have hz : scale = 0 := by
      rcases pow2_of_land_pred scale (by simpa using hb) with h0 | hpow
      · exact h0
      · exact absurd hpow hp
    subst hz
    exact ⟨.mathDomain, rfl⟩
  · refine ⟨.notImplemented, ?_⟩
    unfold upsamplerPlan
    rw [if_neg hb, if_neg (by simp [h3])]

/-- C7 (witness): scale 5 is neither a power of two nor 3, and indeed
construction fails there. -/
theorem c7_upsampler_scale_validation_witness :
    ∃ e, upsamplerPlan 5 = .error e := by
  apply c7_upsampler_scale_validation.1 5
  · rintro ⟨k, hk⟩
    have hlt : k < 3 := by
      by_contra hge
      push_neg at hge
      have : (2 : ℕ) ^ 3 ≤ 2 ^ k := Nat.pow_le_pow_right (by norm_num) hge
      omega
    interval_cases k <;> norm_num at hk
  · decide

/-- C10: scale factor 1 passes the power-of-two test of
`Upsampler.__init__` (yielding zero sub-pixel stages) and the resulting
stage is the identity on every input tensor. -/
theorem c10_scale_one_identity :
    upsamplerPlan 1 = .ok (.pow2 0)
  ∧ ∀ (nf : ℕ) (ps : ℕ → ConvParams) (x : Tensor4),
      upsamplerForward nf ps (.pow2 0) x = x :=
  ⟨upsamplerPlan_one, fun _ _ _ => rfl⟩

/-- Replacing the mean-shift parameters does not change the
residual-block stack (it reads only the block convolutions). -/
lemma edsrBodyBlocks_mean_irrel (cfg : Config) (p : EDSRParams)
    (sw : ℕ → ℕ → ℕ → ℕ → ℚ) (sb : ℕ → ℚ)
    (aw : ℕ → ℕ → ℕ → ℕ → ℚ) (ab : ℕ → ℚ) :
    ∀ (k : ℕ) (x : Tensor4),
      edsrBodyBlocks cfg
        { p with subMeanW := sw, subMeanB := sb, addMeanW := aw, addMeanB := ab }
        k x
        = edsrBodyBlocks cfg p k x := by
  intro k
  induction k with
  | zero => intro x; rfl
  | succ i ih =>
    intro x
    show resBlockForward cfg.n_feats 3 _ _ cfg.res_scale
      (edsrBodyBlocks cfg _ i x) = _
    rw [ih]
    rfl

/-- Replacing the mean-shift parameters does not change the forward
pass. -/
lemma edsrForward_mean_irrel (cfg : Config) (p : EDSRParams)
    (sw : ℕ → ℕ → ℕ → ℕ → ℚ) (sb : ℕ → ℚ)
    (aw : ℕ → ℕ → ℕ → ℕ → ℚ) (ab : ℕ → ℚ) (x : Tensor4) :
    edsrForward cfg
      { p with subMeanW := sw, subMeanB := sb, addMeanW := aw, addMeanB := ab }
      x = edsrForward cfg p x := by
  have h2 : edsrHead cfg
      { p with subMeanW := sw, subMeanB := sb, addMeanW := aw, addMeanB := ab }
      x = edsrHead cfg p x := rfl
  have h3 : ∀ y, edsrBody cfg
      { p with subMeanW := sw, subMeanB := sb, addMeanW := aw, addMeanB := ab }
      y = edsrBody cfg p y := by
    intro y
    unfold edsrBody
    rw [edsrBodyBlocks_mean_irrel]
  have h4 : ∀ y, edsrTail cfg
      { p with subMeanW := sw, subMeanB := sb, addMeanW := aw, addMeanB := ab }
      y = edsrTail cfg p y := by
    intro y
    unfold edsrTail
    cases upsamplerPlan cfg.scale with
    | ok plan => rfl
    | error e => rfl
  show (if cfg.no_upsampling then
      addT (edsrBody cfg _ (edsrHead cfg _ x)) (edsrHead cfg _ x)
    else edsrTail cfg _
      (addT (edsrBody cfg _ (edsrHead cfg _ x)) (edsrHead cfg _ x))) = _
  rw [h2, h3, h4]
  rfl

/-- C5: `EDSR.forward` computes `h = head(x)`, `r = body(h)`, adds the
long skip `r + h` unscaled, and returns `r + h` in feature-extractor
mode and `tail(r + h)` otherwise; and the forward result does not
depend on the constructed mean-shift parameters (they are never
applied). -/
theorem c5_forward_structure (cfg : Config) (p : EDSRParams)
    (sw : ℕ → ℕ → ℕ → ℕ → ℚ) (sb : ℕ → ℚ)
    (aw : ℕ → ℕ → ℕ → ℕ → ℚ) (ab : ℕ → ℚ) (x : Tensor4) :
    edsrForward cfg p x =
      (if cfg.no_upsampling then
        addT (edsrBody cfg p (edsrHead cfg p x)) (edsrHead cfg p x)
      else
        edsrTail cfg p
          (addT (edsrBody cfg p (edsrHead cfg p x)) (edsrHead cfg p x)))
  ∧ edsrForward cfg
      { p with subMeanW := sw, subMeanB := sb, addMeanW := aw, addMeanB := ab }
      x = edsrForward cfg p x :=
  ⟨rfl, edsrForward_mean_irrel cfg p sw sb aw ab x⟩

/-- C6: for every configuration with a constructible scale and every
input, the output spatial size is the input's multiplied by the scale
when not in feature-extractor mode, and unchanged in feature-extractor
mode. -/
theorem c6_output_spatial_shape (cfg : Config) (p : EDSRParams)
    (x : Tensor4) :
    (cfg.no_upsampling = true →
      (edsrForward cfg p x).h = x.h ∧ (edsrForward cfg p x).w = x.w)
  ∧ (cfg.no_upsampling = false →
      ((∃ e, cfg.scale = 2 ^ e) ∨ cfg.scale = 3) →
      (edsrForward cfg p x).h = x.h * cfg.scale ∧
        (edsrForward cfg p x).w = x.w * cfg.scale) := by
  constructor
  · intro hnu
    unfold edsrForward
    rw [if_pos hnu]
    exact ⟨edsrTrunk_h cfg p x, edsrTrunk_w cfg p x⟩
  · intro hnu hs
    unfold edsrForward
    rw [if_neg (by simp [hnu])]
    rcases hs with ⟨e, he⟩ | h3
    · rw [edsrTail_h_pow2 cfg p _ e he, edsrTail_w_pow2 cfg p _ e he,
        edsrTrunk_h, edsrTrunk_w]
      exact ⟨rfl, rfl⟩
    · rw [edsrTail_h_three cfg p _ h3, edsrTail_w_three cfg p _ h3,
        edsrTrunk_h, edsrTrunk_w]
      exact ⟨rfl, rfl⟩

/-- C6 (witness): a scale-2 non-extractor configuration doubles the
spatial size of a 1×3×1×1 input. -/
theorem c6_output_spatial_shape_witness :
    (edsrForward cfgUp zeroParams cexInput).h = cexInput.h * cfgUp.scale ∧
      (edsrForward cfgUp zeroParams cexInput).w = cexInput.w * cfgUp.scale :=
  (c6_output_spatial_shape cfgUp zeroParams cexInput).2 rfl (Or.inl ⟨1, rfl⟩)

/-- Entry-level action of `meanShift` on a 3-channel tensor at an
in-range index: it maps entry `v` of channel `cc` to
`v / std cc + sign * rgb_range * mean cc / std cc`. -/
lemma meanShift_data (rgbRange : ℚ) (mean std : ℕ → ℚ) (sign : ℚ)
    (x : Tensor4) (b cc i j : ℕ) (hcx : x.c = 3) (hcc : cc < 3)
    (hi : i < x.h) (hj : j < x.w) :
    (meanShift rgbRange mean std sign x).data b cc i j
      = sign * rgbRange * mean cc / std cc + x.data b cc i j / std cc := by
  show meanShiftBias sign rgbRange mean std cc +
      ∑ c2 ∈ Finset.range x.c, ∑ di ∈ Finset.range 1, ∑ dj ∈ Finset.range 1,
        meanShiftWeight std cc c2 di dj * padAccess x 0 b c2 (i + di) (j + dj)
      = _
  rw [hcx]
  simp only [Finset.sum_range_one]
  have hpad : ∀ c2, padAccess x 0 b c2 (i + 0) (j + 0) = x.data b c2 i j := by
    intro c2
    unfold padAccess
    rw [if_pos]
    · simp
    · constructor
      · omega
      · refine ⟨by simpa using hi, by omega, by simpa using hj⟩
  have hsum : ∑ c2 ∈ Finset.range 3,
      meanShiftWeight std cc c2 0 0 * padAccess x 0 b c2 (i + 0) (j + 0)
      = x.data b cc i j / std cc := by
    have hterm : ∀ c2, meanShiftWeight std cc c2 0 0 *
        padAccess x 0 b c2 (i + 0) (j + 0)
        = if cc = c2 then x.data b c2 i j / std cc else 0 := by
      intro c2
      rw [hpad c2]
      unfold meanShiftWeight
      by_cases hc : cc = c2
      · rw [if_pos hc, if_pos hc]
        ring
      · rw [if_neg hc, if_neg hc]
        ring
    rw [Finset.sum_congr rfl (fun c2 _ => hterm c2)]
    rw [Finset.sum_ite_eq (Finset.range 3) cc (fun c2 => x.data b c2 i j / std cc)]
    rw [if_pos (Finset.mem_range.mpr hcc)]
  rw [hsum]
  rfl

/-- C3 (counterexample): with standard deviation 2 (for every channel),
mean 1 and range 1, the sign = −1 then sign = +1 mean-shift composition
does not reproduce a zero input: entry (0,0,0,0) becomes 1/4.  The
inverse property fails for general std because each pass divides by
std, so the bias and signal are scaled by 1/std² in the composition. -/
theorem c3_counterexample :
    ¬ Tensor4.Equiv
      (meanShift 1 (fun _ => 1) (fun _ => 2) 1
        (meanShift 1 (fun _ => 1) (fun _ => 2) (-1) cexInput))
      cexInput := by
  intro h
  have he := h.2.2.2.2 0 0 0 0 (by decide) (by decide) (by decide) (by decide)
  have h1 : (meanShift 1 (fun _ => 1) (fun _ => 2) (-1) cexInput).data 0 0 0 0
      = -1 * 1 * 1 / 2 + cexInput.data 0 0 0 0 / 2 :=
    meanShift_data 1 (fun _ => 1) (fun _ => 2) (-1) cexInput 0 0 0 0
      rfl (by norm_num) (by decide) (by decide)
  have h2 : (meanShift 1 (fun _ => 1) (fun _ => 2) 1
        (meanShift 1 (fun _ => 1) (fun _ => 2) (-1) cexInput)).data 0 0 0 0
      = 1 * 1 * 1 / 2 +
        (meanShift 1 (fun _ => 1) (fun _ => 2) (-1) cexInput).data 0 0 0 0 / 2 :=
    meanShift_data 1 (fun _ => 1) (fun _ => 2) 1 _ 0 0 0 0
      rfl (by norm_num) (by decide) (by decide)
  rw [h2, h1] at he
  have hx : cexInput.data 0 0 0 0 = 0 := rfl
  rw [hx] at he
  norm_num at he

/-- C3 (amended): the sign = −1 / sign = +1 mean-shift pair is an exact
inverse on every 3-channel input for every range and mean PROVIDED the
per-channel standard deviation is 1 — which is the only std the module
ever uses (`MeanShift` is always constructed with its default
`rgb_std = (1, 1, 1)`).  For a non-unit std the pair is not inverse
(see the counterexample). -/
theorem c3_mean_shift_inverse (rgbRange : ℚ) (mean std : ℕ → ℚ)
    (x : Tensor4) (hstd : ∀ o, std o = 1) (hc : x.c = 3) :
    Tensor4.Equiv
      (meanShift rgbRange mean std 1 (meanShift rgbRange mean std (-1) x))
      x := by
  refine ⟨rfl, hc.symm, rfl, rfl, ?_⟩
  intro b cc i j hb hcc hi hj
  have hcc3 : cc < 3 := hcc
  have hy : (meanShift rgbRange mean std (-1) x).c = 3 := rfl
  have h1 := meanShift_data rgbRange mean std (-1) x b cc i j hc hcc3 hi hj
  have h2 := meanShift_data rgbRange mean std 1
    (meanShift rgbRange mean std (-1) x) b cc i j hy hcc3 hi hj
  rw [h2, h1, hstd cc]
  ring

/-- C3 (witness): the amended theorem applied at unit std, mean 1,
range 1 and the zero input. -/
theorem c3_mean_shift_inverse_witness :
    Tensor4.Equiv
      (meanShift 1 (fun _ => 1) (fun _ => 1) 1
        (meanShift 1 (fun _ => 1) (fun _ => 1) (-1) cexInput))
      cexInput :=
  c3_mean_shift_inverse 1 (fun _ => 1) (fun _ => 1) cexInput
    (fun _ => rfl) rfl

/-- C8: the residual block computes `input + res_scale * f(input)` with
`f` = conv → ReLU → conv (odd kernel, matching channel count), so when
all of its convolutions' weights and biases are zero the block is the
identity: the residual is zero and the skip returns the input exactly. -/
theorem c8_resblock_zero_weights_identity (nf k : ℕ) (c1 c2 : ConvParams)
    (s : ℚ) (x : Tensor4) (hk : k % 2 = 1) (hnf : nf = x.c)
    (hw1 : ∀ o cc i j, c1.weight o cc i j = 0) (hb1 : ∀ o, c1.bias o = 0)
    (hw2 : ∀ o cc i j, c2.weight o cc i j = 0) (hb2 : ∀ o, c2.bias o = 0) :
    resBlockForward nf k c1 c2 s x = x := by
  refine Tensor4.ext ?_ ?_ ?_ ?_ ?_
  · rfl
  · exact hnf
  · simp only [resBlockForward, addT, mulScalar, resBlockBody, conv2d, relu4]
    omega
  · simp only [resBlockForward, addT, mulScalar, resBlockBody, conv2d, relu4]
    omega
  · funext b cc i j
    simp only [resBlockForward, addT, mulScalar, resBlockBody, conv2d, relu4]
    simp [hw2, hb2]

/-- C8 (witness): the theorem applied to zeroed 3×3 convolutions at one
channel on a constant input. -/
theorem c8_resblock_zero_weights_identity_witness :
    resBlockForward 1 3 zeroConv zeroConv 7 constInput = constInput :=
  c8_resblock_zero_weights_identity 1 3 zeroConv zeroConv 7 constInput
    rfl rfl (fun _ _ _ _ => rfl) (fun _ => rfl)
    (fun _ _ _ _ => rfl) (fun _ => rfl)
